import Mathlib

/-!
Verification of `src/elfmalloc/src/utils.rs` (allocators-rs utility layer).

Shallow embedding: addresses and sizes are `Nat`; the element type `T` of a
`TypedArray<T>` is represented by its size `size_of::<T>()`, passed as the
`eltSize` parameter; the OS page size and the address returned by the memory
mapper are opaque parameters.  Fallible operations return `Option`; an
`expect`-style fatal failure is an explicit `abort` constructor.
-/

namespace Elfmalloc

/-! ## mmap module (`pub mod mmap`)

The underlying mapper (`MMAP : MapAlloc`, from the external `mmap_alloc`
crate) is modelled as a function `alloc : Nat → Except String Nat` returning
either an address or an error, matching `Alloc::alloc`'s `Result`.  The
source's `fallible_map` converts the result with `.ok()`;
`map` is `fallible_map(size).expect("mmap should not fail")`, which
terminates the process on `None`.
-/

/-- Outcome of the non-fallible `mmap::map`: an address, or process abort
(the `expect` panic path). -/
inductive MapResult where
  | addr (p : Nat) : MapResult
  | abort : MapResult
  deriving DecidableEq, Repr

namespace mmap

/-- `fallible_map(size) = (&*MMAP).alloc(layout_for_size(size)).ok()`. -/
def fallible_map (alloc : Nat → Except String Nat) (size : Nat) : Option Nat :=
  (alloc size).toOption

/-- `map(size) = fallible_map(size).expect("mmap should not fail")`:
returns the address on success, aborts the process otherwise. -/
def map (alloc : Nat → Except String Nat) (size : Nat) : MapResult :=
  match fallible_map alloc size with
  | some p => MapResult.addr p
  | none => MapResult.abort

end mmap

/-! ## `Lazy<T>` (deferred-init cell)

`Lazy { params: T::Params, val: UnsafeCell<Option<T>> }`.  The interior
mutability is modelled by explicit state passing: `deref` returns the value
together with the updated cell.  The trait method `T::init` is a function
parameter `init : P → T`.  `deref` additionally reports how many times it
invoked `init` (0 or 1), so that invocation counts are provable.
`deref_mut` has the same body as `deref` in the source and is covered by the
same embedding.
-/

structure Lazy (T P : Type) where
  params : P
  val : Option T
  deriving DecidableEq, Repr

namespace Lazy

/-- `Lazy::new(params)`: stores `params`, `val` starts as `None`; `T::init`
is not invoked (the constructor does not receive `init` at all). -/
def new {T P : Type} (params : P) : Lazy T P :=
  { params := params, val := none }

/-- `<Lazy<T> as Deref>::deref` (and the identical `deref_mut`): if `val`
is `None`, set it to `Some (init params)`; return the stored value.  The
third component counts the `T::init` invocations made by this call. -/
def deref {T P : Type} (init : P → T) (l : Lazy T P) : T × Lazy T P × Nat :=
  match l.val with
  | none =>
      let v := init l.params
      (v, { params := l.params, val := some v }, 1)
  | some v => (v, l, 0)

/-- `n` successive accessor calls on one cell instance; returns the final
cell and the total number of `T::init` invocations. -/
def derefN {T P : Type} (init : P → T) (l : Lazy T P) : Nat → Lazy T P × Nat
  | 0 => (l, 0)
  | n + 1 =>
      let r := deref init l
      let s := derefN init r.2.1 n
      (s.1, r.2.2 + s.2)

/-- `<Lazy<T> as Clone>::clone`: clones `params`, resets `val` to `None`.
The `Clone` bound on `T::Params` is the function parameter `cloneP`. -/
def clone {T P : Type} (cloneP : P → P) (l : Lazy T P) : Lazy T P :=
  { params := cloneP l.params, val := none }

/-- `deref` when `T::init` can fail (Rust: panic and unwind).  `init`
returns `none` for a panic; the panic propagates before the assignment
`*state = Some(..)` executes, so the cell is returned unchanged alongside
the absent value. -/
def derefPanic {T P : Type} (init : P → Option T) (l : Lazy T P) :
    Option T × Lazy T P :=
  match l.val with
  | some v => (some v, l)
  | none =>
      match init l.params with
      | none => (none, l)
      | some v => (some v, { params := l.params, val := some v })

end Lazy

/-! ## `TypedArray<T>`

`TypedArray { data: *mut T, len: usize, mapped: usize }`.  `data` is the
address returned by `mmap::map`, kept opaque as the parameter `base`.
-/

structure TypedArray where
  eltSize : Nat
  data : Nat
  len : Nat
  mapped : Nat
  deriving DecidableEq, Repr

namespace TypedArray

/-- The `region_size` computation inside `TypedArray::new`:
`bytes = size_of::<T>() * size; rem = bytes % page_size;`
`n_pages = bytes / page_size + cmp::min(1, rem);`
`region_size = n_pages * page_size`. -/
def regionSize (eltSize pageSize size : Nat) : Nat :=
  let bytes := eltSize * size
  let rem := bytes % pageSize
  let nPages := bytes / pageSize + min 1 rem
  nPages * pageSize

/-- `TypedArray::new(size)`: computes `region_size`, maps that many bytes
(the mapper's returned address is the parameter `base`), and stores the
three fields. -/
def new (eltSize pageSize size base : Nat) : TypedArray :=
  { eltSize := eltSize
    data := base
    len := size
    mapped := regionSize eltSize pageSize size }

/-- `TypedArray::get(n) = self.data.offset(n as isize)`: unchecked pointer
arithmetic; on `*mut T` an offset of `n` elements is `n * size_of::<T>()`
bytes.  Defined for every `n`, bounds are never consulted. -/
def get (a : TypedArray) (n : Nat) : Nat :=
  a.data + n * a.eltSize

end TypedArray

/-! ## `TypedArrayIter<T>` -/

structure TypedArrayIter where
  inner : TypedArray
  cur : Nat
  deriving DecidableEq, Repr

/-- `TypedArray::iter(&self)`: a fresh iterator with `cur = 0`. -/
def TypedArray.iter (a : TypedArray) : TypedArrayIter :=
  { inner := a, cur := 0 }

/-- `<TypedArrayIter as Iterator>::next`: `None` once `cur == inner.len`,
otherwise yield `inner.data.offset(cur)` and advance `cur`. -/
def TypedArrayIter.next (it : TypedArrayIter) : Option (Nat × TypedArrayIter) :=
  if it.cur = it.inner.len then
    none
  else
    some (it.inner.data + it.cur * it.inner.eltSize,
          { it with cur := it.cur + 1 })

/-- Drain an iterator (with fuel, since the embedding is total): the list of
addresses it yields. -/
def TypedArrayIter.drain : Nat → TypedArrayIter → List Nat
  | 0, _ => []
  | fuel + 1, it =>
      match it.next with
      | none => []
      | some (a, it') => a :: TypedArrayIter.drain fuel it'

/-- The full address sequence produced by `a.iter()`: enough fuel to reach
the `cur == len` stop condition. -/
def TypedArray.iterSeq (a : TypedArray) : List Nat :=
  TypedArrayIter.drain a.len a.iter

/-! ## Helper lemmas about the page-rounding arithmetic -/

theorem regionSize_dvd (eltSize pageSize size : Nat) :
    pageSize ∣ TypedArray.regionSize eltSize pageSize size :=
  dvd_mul_left pageSize _

theorem regionSize_ge (eltSize pageSize size : Nat) (hp : 0 < pageSize) :
    eltSize * size ≤ TypedArray.regionSize eltSize pageSize size := by
  show eltSize * size ≤
    (eltSize * size / pageSize + min 1 (eltSize * size % pageSize)) * pageSize
  rcases Nat.eq_zero_or_pos (eltSize * size % pageSize) with h | h
  · rw [h, Nat.min_eq_right (Nat.zero_le 1), Nat.add_zero,
      Nat.div_mul_cancel (Nat.dvd_of_mod_eq_zero h)]
  · rw [min_eq_left h]
    calc eltSize * size
        = pageSize * (eltSize * size / pageSize) + eltSize * size % pageSize :=
          (Nat.div_add_mod _ _).symm
      _ ≤ pageSize * (eltSize * size / pageSize) + pageSize :=
          Nat.add_le_add_left (le_of_lt (Nat.mod_lt _ hp)) _
      _ = (eltSize * size / pageSize + 1) * pageSize := by ring

theorem regionSize_least (eltSize pageSize size m : Nat) (hp : 0 < pageSize)
    (hd : pageSize ∣ m) (hm : eltSize * size ≤ m) :
    TypedArray.regionSize eltSize pageSize size ≤ m := by
  obtain ⟨k, rfl⟩ := hd
  show (eltSize * size / pageSize + min 1 (eltSize * size % pageSize)) * pageSize ≤
    pageSize * k
  rcases Nat.eq_zero_or_pos (eltSize * size % pageSize) with h | h
  · rw [h, Nat.min_eq_right (Nat.zero_le 1)]
    calc (eltSize * size / pageSize + 0) * pageSize
        = eltSize * size / pageSize * pageSize := by ring
      _ = eltSize * size := Nat.div_mul_cancel (Nat.dvd_of_mod_eq_zero h)
      _ ≤ pageSize * k := hm
  · rw [min_eq_left h]
    have hlt : pageSize * (eltSize * size / pageSize) < eltSize * size := by
      have := Nat.div_add_mod (eltSize * size) pageSize
      omega
    have hq : eltSize * size / pageSize < k := by
      by_contra hk
      push_neg at hk
      have : pageSize * k ≤ pageSize * (eltSize * size / pageSize) :=
        Nat.mul_le_mul_left pageSize hk
      omega
    calc (eltSize * size / pageSize + 1) * pageSize
        = pageSize * (eltSize * size / pageSize + 1) := by ring
      _ ≤ pageSize * k := Nat.mul_le_mul_left pageSize hq

/-! ## Helper lemmas about the iterator -/

theorem drain_eq_range_map (a : TypedArray) :
    ∀ (fuel cur : Nat), cur ≤ a.len → a.len ≤ cur + fuel →
      TypedArrayIter.drain fuel { inner := a, cur := cur } =
        (List.range (a.len - cur)).map
          (fun i => a.data + (cur + i) * a.eltSize) := by
  intro fuel
  induction fuel with
  | zero =>
      intro cur h1 h2
      have h3 : a.len - cur = 0 := by omega
      rw [h3]
      rfl
  | succ fuel ih =>
      intro cur h1 h2
      by_cases hc : cur = a.len
      · have h3 : a.len - cur = 0 := by omega
        rw [h3]
        show TypedArrayIter.drain (fuel + 1) { inner := a, cur := cur } = []
        simp [TypedArrayIter.drain, TypedArrayIter.next, hc]
      · have hlt : cur < a.len := lt_of_le_of_ne h1 hc
        have hstep : TypedArrayIter.drain (fuel + 1) { inner := a, cur := cur } =
            (a.data + cur * a.eltSize) ::
              TypedArrayIter.drain fuel { inner := a, cur := cur + 1 } := by
          simp [TypedArrayIter.drain, TypedArrayIter.next, hc]
        rw [hstep, ih (cur + 1) hlt (by omega)]
        have h4 : a.len - cur = (a.len - (cur + 1)) + 1 := by omega
        rw [h4, List.range_succ_eq_map, List.map_cons, List.map_map]
        refine congrArg₂ List.cons (by ring) (List.map_congr_left ?_)
        intro i _
        show a.data + (cur + 1 + i) * a.eltSize =
          a.data + (cur + Nat.succ i) * a.eltSize
        simp only [Nat.succ_eq_add_one]
        ring

theorem iterSeq_eq_range_map (a : TypedArray) :
    a.iterSeq = (List.range a.len).map (fun i => a.data + i * a.eltSize) := by
  have h := drain_eq_range_map a a.len 0 (Nat.zero_le _) (by omega)
  simpa [TypedArray.iterSeq, TypedArray.iter] using h

/-! ## Helper lemmas about `Lazy` -/

theorem Lazy.deref_of_some {T P : Type} (init : P → T) (l : Lazy T P) (v : T)
    (h : l.val = some v) : Lazy.deref init l = (v, l, 0) := by
  simp [Lazy.deref, h]

theorem Lazy.derefN_of_some {T P : Type} (init : P → T) (l : Lazy T P) (v : T)
    (h : l.val = some v) : ∀ n, Lazy.derefN init l n = (l, 0) := by
  intro n
  induction n with
  | zero => rfl
  | succ n ih =>
      show Lazy.derefN init l (n + 1) = (l, 0)
      simp [Lazy.derefN, Lazy.deref_of_some init l v h, ih]

/-! ## Claim theorems -/

/-- C1: for every `element_count > 0` and element size `s`, the region
created by `TypedArray::new(element_count)` has `mapped` equal to the
smallest multiple of the page size that is `≥ element_count * s`; in
particular 513 elements of an 8-byte type with 4096-byte pages yield
`mapped == 8192`. -/
theorem C1_mapped_smallest_page_multiple (eltSize pageSize count base : Nat)
    (hcount : 0 < count) (hp : 0 < pageSize) :
    (pageSize ∣ (TypedArray.new eltSize pageSize count base).mapped ∧
      eltSize * count ≤ (TypedArray.new eltSize pageSize count base).mapped ∧
      ∀ m, pageSize ∣ m → eltSize * count ≤ m →
        (TypedArray.new eltSize pageSize count base).mapped ≤ m) ∧
    (TypedArray.new 8 4096 513 base).mapped = 8192 := by
  refine ⟨⟨regionSize_dvd eltSize pageSize count,
    regionSize_ge eltSize pageSize count hp,
    fun m hd hm => regionSize_least eltSize pageSize count m hp hd hm⟩, ?_⟩
  show TypedArray.regionSize 8 4096 513 = 8192
  decide

/-- Witness for C1 at `eltSize = 8`, `pageSize = 4096`, `count = 513`,
`base = 0`. -/
theorem C1_mapped_smallest_page_multiple_witness :
    (4096 ∣ (TypedArray.new 8 4096 513 0).mapped ∧
      8 * 513 ≤ (TypedArray.new 8 4096 513 0).mapped ∧
      ∀ m, 4096 ∣ m → 8 * 513 ≤ m → (TypedArray.new 8 4096 513 0).mapped ≤ m) ∧
    (TypedArray.new 8 4096 513 0).mapped = 8192 :=
  C1_mapped_smallest_page_multiple 8 4096 513 0 (by decide) (by decide)

/-- C4 counterexample: with `element_count = 0` (so `bytes == 0`) and
4096-byte pages, `TypedArray::new` computes `mapped = 0`, not a mapping of
at least one page as the claim states. -/
theorem C4_counterexample :
    (TypedArray.new 8 4096 0 0).mapped = 0 ∧
    ¬ 4096 ≤ (TypedArray.new 8 4096 0 0).mapped := by
  constructor
  · decide
  · decide

/-- C4 amended: whenever `element_count * size_of(T) == 0`, `TypedArray::new`
computes `mapped = 0` — it requests a zero-byte mapping, with no minimum of
one page. -/
theorem C4_zero_bytes_give_zero_mapping (eltSize pageSize count base : Nat)
    (h : eltSize * count = 0) :
    (TypedArray.new eltSize pageSize count base).mapped = 0 := by
  show TypedArray.regionSize eltSize pageSize count = 0
  show (eltSize * count / pageSize + min 1 (eltSize * count % pageSize)) *
    pageSize = 0
  rw [h, Nat.zero_div, Nat.zero_mod, Nat.min_eq_right (Nat.zero_le 1),
    Nat.add_zero, Nat.zero_mul]

/-- Witness for the amended C4 at `eltSize = 8`, `count = 0`,
`pageSize = 4096`, `base = 7`. -/
theorem C4_zero_bytes_give_zero_mapping_witness :
    (TypedArray.new 8 4096 0 7).mapped = 0 :=
  C4_zero_bytes_give_zero_mapping 8 4096 0 7 (by decide)

/-- C9: `get(n)` is unchecked pointer arithmetic `base + n * size_of(T)` for
every `n` (also out of range), `len()` returns the creation count, and the
concrete 1-element 8-byte scenario on 4096-byte pages gives `mapped = 4096`,
`len = 1`, `get 0 = base`. -/
theorem C9_get_unchecked_and_len (a : TypedArray) (n : Nat)
    (eltSize pageSize count base : Nat) :
    a.get n = a.data + n * a.eltSize ∧
    (TypedArray.new eltSize pageSize count base).len = count ∧
    ((TypedArray.new 8 4096 1 base).mapped = 4096 ∧
      (TypedArray.new 8 4096 1 base).len = 1 ∧
      (TypedArray.new 8 4096 1 base).get 0 = base) := by
  refine ⟨rfl, rfl, ?_, rfl, ?_⟩
  · show TypedArray.regionSize 8 4096 1 = 4096
    decide
  · show base + 0 * 8 = base
    omega

/-- C10: when `element_count * size_of(T)` is a positive exact multiple of
the page size, `TypedArray::new` maps exactly that many bytes — no extra
page. -/
theorem C10_exact_multiple_maps_exactly (eltSize pageSize count base : Nat)
    (hp : 0 < pageSize) (hpos : 0 < eltSize * count)
    (hdvd : pageSize ∣ eltSize * count) :
    (TypedArray.new eltSize pageSize count base).mapped = eltSize * count := by
  obtain ⟨k, hk⟩ := hdvd
  show (eltSize * count / pageSize + min 1 (eltSize * count % pageSize)) *
    pageSize = eltSize * count
  rw [hk, Nat.mul_mod_right, Nat.mul_div_cancel_left k hp,
    Nat.min_eq_right (Nat.zero_le 1), Nat.add_zero, Nat.mul_comm]

/-- Witness for C10 at `eltSize = 8`, `count = 512`, `pageSize = 4096`
(`bytes = 4096`, exactly one page). -/
theorem C10_exact_multiple_maps_exactly_witness :
    (TypedArray.new 8 4096 512 0).mapped = 8 * 512 :=
  C10_exact_multiple_maps_exactly 8 4096 512 0 (by decide) (by decide)
    (by decide)

/-- C2: `Lazy::new` stores `params` with `val = None` (so `T::init` is not
invoked at construction: `new` never receives `init` at all); across any
`n ≥ 1` accessor calls on one cell, `T::init` runs exactly once and the
final state stores `init params`; every accessor call returns exactly the
value stored in the cell after the call; once `val` is `Some` an accessor
call leaves the cell unchanged, so it never reverts to `None`. -/
theorem C2_lazy_initialized_exactly_once {T P : Type} (init : P → T)
    (params : P) (n : Nat) (hn : 1 ≤ n) :
    (Lazy.new (T := T) params).val = none ∧
    Lazy.derefN init (Lazy.new params) n =
      ({ params := params, val := some (init params) }, 1) ∧
    (∀ l : Lazy T P, (Lazy.deref init l).2.1.val = some (Lazy.deref init l).1) ∧
    (∀ l : Lazy T P, ∀ v : T, l.val = some v → (Lazy.deref init l).2.1 = l) := by
  refine ⟨rfl, ?_, ?_, ?_⟩
  · obtain ⟨m, rfl⟩ : ∃ m, n = m + 1 := ⟨n - 1, by omega⟩
    have h1 : Lazy.deref init (Lazy.new (T := T) params) =
        (init params, { params := params, val := some (init params) }, 1) := rfl
    simp [Lazy.derefN, h1,
      Lazy.derefN_of_some init { params := params, val := some (init params) }
        (init params) rfl m]
  · intro l
    cases hv : l.val with
    | none => simp [Lazy.deref, hv]
    | some v => simp [Lazy.deref, hv]
  · intro l v hv
    simp [Lazy.deref_of_some init l v hv]

/-- Witness for C2 with `T = P = Nat`, `init = Nat.succ`, `params = 0`,
three accessor calls. -/
theorem C2_lazy_initialized_exactly_once_witness :
    (Lazy.new (T := Nat) (0 : Nat)).val = none ∧
    Lazy.derefN Nat.succ (Lazy.new 0) 3 =
      ({ params := 0, val := some (Nat.succ 0) }, 1) ∧
    (∀ l : Lazy Nat Nat,
      (Lazy.deref Nat.succ l).2.1.val = some (Lazy.deref Nat.succ l).1) ∧
    (∀ l : Lazy Nat Nat, ∀ v : Nat, l.val = some v →
      (Lazy.deref Nat.succ l).2.1 = l) :=
  C2_lazy_initialized_exactly_once Nat.succ 0 3 (by decide)

/-- C5: when the mapper cannot satisfy a request, `fallible_map` returns
`None` while `map` aborts the process (the `expect` path); whenever
`fallible_map` succeeds with address `p`, `map` returns that same `p`. -/
theorem C5_fallible_absent_eager_abort
    (allocFail allocOk : Nat → Except String Nat) (size : Nat) (e : String)
    (p : Nat) (hfail : allocFail size = Except.error e)
    (hok : mmap.fallible_map allocOk size = some p) :
    (mmap.fallible_map allocFail size = none ∧
      mmap.map allocFail size = MapResult.abort) ∧
    mmap.map allocOk size = MapResult.addr p := by
  have h1 : mmap.fallible_map allocFail size = none := by
    simp [mmap.fallible_map, hfail, Except.toOption]
  exact ⟨⟨h1, by simp [mmap.map, h1]⟩, by simp [mmap.map, hok]⟩

/-- Witness for C5: a mapper that always fails with an out-of-memory error
versus one that returns address 4096, both asked for 100 bytes. -/
theorem C5_fallible_absent_eager_abort_witness :
    (mmap.fallible_map (fun _ => Except.error "oom") 100 = none ∧
      mmap.map (fun _ => Except.error "oom") 100 = MapResult.abort) ∧
    mmap.map (fun _ => Except.ok 4096) 100 = MapResult.addr 4096 :=
  C5_fallible_absent_eager_abort (fun _ => Except.error "oom")
    (fun _ => Except.ok 4096) 100 "oom" 4096 rfl rfl

/-- C6: if `T::init` panics (modelled as `init params = none`) on the first
accessor call, the panic propagates (`none` is returned) and the cell is
unchanged with `val` still `None`; a later accessor call with a succeeding
constructor retries construction and initializes the cell. -/
theorem C6_panic_leaves_cell_uninitialized {T P : Type}
    (init retry : P → Option T) (l : Lazy T P) (v : T)
    (hval : l.val = none) (hpanic : init l.params = none)
    (hretry : retry l.params = some v) :
    Lazy.derefPanic init l = (none, l) ∧
    (Lazy.derefPanic init l).2.val = none ∧
    Lazy.derefPanic retry (Lazy.derefPanic init l).2 =
      (some v, { params := l.params, val := some v }) := by
  have h1 : Lazy.derefPanic init l = (none, l) := by
    simp [Lazy.derefPanic, hval, hpanic]
  refine ⟨h1, by rw [h1]; exact hval, ?_⟩
  rw [h1]
  simp [Lazy.derefPanic, hval, hretry]

/-- Witness for C6 with `T = P = Nat`, a constructor that always panics and
a retry constructor returning its parameter. -/
theorem C6_panic_leaves_cell_uninitialized_witness :
    Lazy.derefPanic (fun _ => (none : Option Nat))
      ({ params := 5, val := none } : Lazy Nat Nat) =
      (none, { params := 5, val := none }) ∧
    (Lazy.derefPanic (fun _ => (none : Option Nat))
      ({ params := 5, val := none } : Lazy Nat Nat)).2.val = none ∧
    Lazy.derefPanic (fun p => some p)
      (Lazy.derefPanic (fun _ => (none : Option Nat))
        ({ params := 5, val := none } : Lazy Nat Nat)).2 =
      (some 5, { params := 5, val := some 5 }) :=
  C6_panic_leaves_cell_uninitialized (fun _ => none) (fun p => some p)
    { params := 5, val := none } 5 rfl rfl rfl

/-- C8: cloning a `Lazy` cell equals `Lazy::new(params.clone())`: the
clone's `val` is `None` regardless of the original's state, and the clone's
first accessor call invokes the constructor (once), on the cloned
parameters. -/
theorem C8_clone_starts_uninitialized {T P : Type} (cloneP : P → P)
    (init : P → T) (l : Lazy T P) :
    Lazy.clone cloneP l = Lazy.new (cloneP l.params) ∧
    (Lazy.clone cloneP l).val = none ∧
    (Lazy.deref init (Lazy.clone cloneP l)).2.2 = 1 ∧
    (Lazy.deref init (Lazy.clone cloneP l)).1 = init (cloneP l.params) :=
  ⟨rfl, rfl, rfl, rfl⟩

/-- C3 counterexample: a region of 2 zero-sized elements (`size_of(T) = 0`,
as for `TypedArray<()>`) yields the addresses `[base, base]`, which are not
strictly increasing — the claim fails as stated for zero-sized element
types. -/
theorem C3_counterexample_zero_sized_elements :
    (TypedArray.new 0 4096 2 0).iterSeq = [0, 0] ∧
    ¬ List.Pairwise (fun x y : Nat => x < y)
      (TypedArray.new 0 4096 2 0).iterSeq := by
  constructor
  · rfl
  · decide

/-- C3 amended: for every region whose element size is positive, `iter()`
yields exactly `len` addresses, the `i`-th equal to `data + i * size_of(T)`,
strictly increasing; and `iter()` is restartable: it always returns the
fresh cursor `{ inner := a, cur := 0 }`, so two successive `iter()` calls
produce identical sequences.  (For zero-sized element types everything but
the strict increase still holds.) -/
theorem C3_iter_yields_increasing_addresses (a : TypedArray)
    (he : 0 < a.eltSize) :
    a.iterSeq = (List.range a.len).map (fun i => a.data + i * a.eltSize) ∧
    a.iterSeq.length = a.len ∧
    List.Pairwise (fun x y => x < y) a.iterSeq ∧
    a.iter = { inner := a, cur := 0 } := by
  refine ⟨iterSeq_eq_range_map a, ?_, ?_, rfl⟩
  · rw [iterSeq_eq_range_map a]
    simp
  · rw [iterSeq_eq_range_map a, List.pairwise_map]
    exact List.Pairwise.imp
      (fun hij => Nat.add_lt_add_left (mul_lt_mul_of_pos_right hij he) a.data)
      (List.pairwise_lt_range _)

/-- Witness for the amended C3: a region of 3 elements of size 8 at base
address 100, page size 4096. -/
theorem C3_iter_yields_increasing_addresses_witness :
    (TypedArray.new 8 4096 3 100).iterSeq =
      (List.range (TypedArray.new 8 4096 3 100).len).map
        (fun i => (TypedArray.new 8 4096 3 100).data +
          i * (TypedArray.new 8 4096 3 100).eltSize) ∧
    (TypedArray.new 8 4096 3 100).iterSeq.length =
      (TypedArray.new 8 4096 3 100).len ∧
    List.Pairwise (fun x y => x < y) (TypedArray.new 8 4096 3 100).iterSeq ∧
    (TypedArray.new 8 4096 3 100).iter =
      { inner := TypedArray.new 8 4096 3 100, cur := 0 } :=
  C3_iter_yields_increasing_addresses (TypedArray.new 8 4096 3 100) (by decide)

